import Mathlib

/-!
# DreamShell backend — shallow embedding and verification

This file embeds the entry-ingestion core of the DreamShell backend
(`dreamshell-backend/src/index.ts`, the per-user variant: keyword
extraction, goal-state sentiment, relevance scoring, persona evolution,
the `/entry` route and the `/entry/stream` SSE protocol) as executable
Lean definitions, and proves or refutes the specification's claims
about them.

JavaScript numbers are modelled as `ℚ` (all arithmetic the code performs
on the modelled paths is exact decimal/rational arithmetic), except that
a value that would be `NaN` in JavaScript is modelled as `none` in an
`Option ℚ`.  Strings are modelled as Lean `String`s, processed through
their character lists.
-/

namespace DreamShell

/-! ## JavaScript-flavoured character and string helpers -/

/-- ASCII lower-case letter or digit: the characters that survive the
`replace(/[^a-z0-9\s]/g, ' ')` normalisation in `extractKeywords`. -/
def isAlnumLower (c : Char) : Bool :=
  ('a' ≤ c && c ≤ 'z') || ('0' ≤ c && c ≤ '9')

/-- JavaScript word character (`\w` / the `\b` boundary class): letters,
digits and underscore. -/
def isWordChar (c : Char) : Bool :=
  ('a' ≤ c && c ≤ 'z') || ('A' ≤ c && c ≤ 'Z') || ('0' ≤ c && c ≤ '9') || c = '_'

/-- Whitespace as trimmed by JavaScript `String.prototype.trim` (ASCII part:
space, tab, line feed, carriage return, vertical tab, form feed). -/
def isJsWs (c : Char) : Bool :=
  c = ' ' || c = '\t' || c = '\n' || c = '\r' || c = Char.ofNat 11 || c = Char.ofNat 12

/-- `String.prototype.trim`: strip leading and trailing whitespace. -/
def jsTrim (s : String) : String :=
  String.mk (((s.data.dropWhile isJsWs).reverse.dropWhile isJsWs).reverse)

/-- Lower-cased character list of a string (`text.toLowerCase()`,
ASCII-faithful). -/
def lowerChars (s : String) : List Char :=
  s.data.map Char.toLower

/-- `t.includes(w)`: substring containment, on lower-cased text. -/
def includesB (t w : String) : Bool :=
  decide (w.data <:+: lowerChars t)

/-! ## Text Analyzer: `extractKeywords` -/

/-- One character of
`text.toLowerCase().replace(/[^a-z0-9\s]/g, ' ')`, with every separator
(whitespace or replaced character) mapped to `' '`; token-wise this is
exactly the source's normalisation followed by `split(/\s+/)`. -/
def normalizeChar (c : Char) : Char :=
  let l := c.toLower
  if isAlnumLower l then l else ' '

/-- The normalised character list of the input text. -/
def normalizedChars (s : String) : List Char :=
  s.data.map normalizeChar

/-- Split a character list on `' '`, keeping (possibly empty) chunks;
the accumulator holds the current chunk reversed. -/
def splitChars : List Char → List Char → List String
  | [], acc => [String.mk acc.reverse]
  | c :: cs, acc =>
      if c = ' ' then String.mk acc.reverse :: splitChars cs [] else splitChars cs (c :: acc)

/-- The raw token sequence of the normalised text (the result of
`split(/\s+/)`, up to empty chunks that the length filter removes). -/
def rawTokens (s : String) : List String :=
  splitChars (normalizedChars s) []

/-- The fixed stopword set `STOP` of the source. -/
def STOPWORDS : List String :=
  ["the", "a", "an", "and", "or", "but", "if", "in", "on", "at", "for", "with", "to",
   "of", "is", "are", "be", "am", "i", "you", "he", "she", "it", "we", "they", "me",
   "my", "your", "our", "their", "this", "that"]

/-- The token filter of `extractKeywords`:
`w.length > 2 && !STOP.has(w)`. -/
def keywordFilter (w : String) : Bool :=
  decide (2 < w.length) && decide (w ∉ STOPWORDS)

/-- The tokens of the normalised text that survive the filter. -/
def filteredTokens (s : String) : List String :=
  (rawTokens s).filter keywordFilter

/-- `new Set(list)` iteration order: drop every element already seen,
keeping the first occurrence of each value. -/
def dedupSeen (seen : List String) : List String → List String
  | [] => []
  | x :: xs =>
      if x ∈ seen then dedupSeen seen xs else x :: dedupSeen (x :: seen) xs

/-- `extractKeywords` of the source: normalise, split, filter, dedupe
(first-seen order), truncate to 12. -/
def extractKeywords (s : String) : List String :=
  (dedupSeen [] (filteredTokens s)).take 12

/-! ## Text Analyzer: goal-state sentiment (`analyzeGoalState` / `naiveSentiment`) -/

/-- The `GOAL_STATES` word buckets of the source, as a partial name map;
an unknown category name (the source consults the nonexistent
`uncertainty` bucket) yields `[]`, modelling `scores[state] || 0`. -/
def goalWords : String → List String
  | "action" => ["do", "start", "begin", "create", "make", "build", "work", "implement", "execute", "launch"]
  | "progress" => ["improve", "grow", "develop", "advance", "achieve", "complete", "finish", "accomplish"]
  | "learning" => ["learn", "study", "practice", "understand", "master", "explore", "research", "analyze"]
  | "skills" => ["code", "program", "design", "write", "teach", "lead", "manage", "solve"]
  | "planning" => ["plan", "organize", "structure", "prepare", "arrange", "schedule", "coordinate"]
  | "goals" => ["goal", "target", "objective", "milestone", "outcome", "result", "success"]
  | "motivation" => ["motivated", "determined", "focused", "committed", "dedicated", "passionate"]
  | "confidence" => ["can", "will", "able", "capable", "ready", "confident", "sure", "certain"]
  | "challenges" => ["challenge", "problem", "obstacle", "difficulty", "barrier", "issue"]
  | "growth" => ["opportunity", "potential", "possibility", "prospect", "chance", "opening"]
  | _ => []

/-- Whole-word match of `w` at position `i` of `t`
(the regex `\bw\b`): the characters of `w` occur at `i`, and both
neighbours (when present) are non-word characters. -/
def wordMatchAt (t w : List Char) (i : Nat) : Bool :=
  ((t.drop i).take w.length == w)
    && (i == 0 || !isWordChar (t.getD (i - 1) ' '))
    && (decide (t.length ≤ i + w.length) || !isWordChar (t.getD (i + w.length) ' '))

/-- Number of whole-word matches of `w` in `t`
(`(t.match(new RegExp('\\b' + w + '\\b', 'gi')) || []).length`; since both
boundaries are required, whole-word matches cannot overlap, so counting
all match positions equals the global regex count). -/
def countWord (t w : List Char) : Nat :=
  ((List.range t.length).filter (wordMatchAt t w)).length

/-- Score of one `GOAL_STATES` category on the lower-cased text. -/
def stateScore (s : String) (cat : String) : Nat :=
  ((goalWords cat).map (fun w => countWord (lowerChars s) w.data)).sum

/-- `posScore` of `analyzeGoalState`: the tallies of the
`progress`, `confidence`, `motivation`, `growth` categories. -/
def posScore (s : String) : Nat :=
  stateScore s "progress" + stateScore s "confidence" + stateScore s "motivation" + stateScore s "growth"

/-- `negScore` of `analyzeGoalState`: the tallies of the `challenges`
and (nonexistent, hence 0) `uncertainty` categories. -/
def negScore (s : String) : Nat :=
  stateScore s "challenges" + stateScore s "uncertainty"

/-- `Math.max(lo, Math.min(hi, x))`. -/
def clampQ (lo hi x : ℚ) : ℚ :=
  max lo (min hi x)

/-- The sentiment of `analyzeGoalState`:
`Math.max(-1, Math.min(1, (posScore - negScore) / 5))`; `naiveSentiment`
returns exactly this field. -/
def naiveSentiment (s : String) : ℚ :=
  clampQ (-1) 1 (((posScore s : ℚ) - (negScore s : ℚ)) / 5)

/-! ## Persona Evolver (`EMOTION_WORDS`, `mix`, `clamp`, `evolvePersonaForUser`) -/

/-- The `wonder` bucket of `EMOTION_WORDS`. -/
def wonderWords : List String :=
  ["why", "how", "mystery", "learn", "discover", "explore", "curious", "understand", "insight", "reflect"]

/-- The `care` bucket of `EMOTION_WORDS`. -/
def careWords : List String :=
  ["friend", "family", "love", "help", "care", "support", "share", "connect", "trust", "gratitude"]

/-- The `rigor` bucket of `EMOTION_WORDS`. -/
def rigorWords : List String :=
  ["plan", "analyze", "decide", "solve", "build", "measure", "improve", "system", "process", "goal"]

/-- The `growth` bucket of `EMOTION_WORDS`. -/
def growthWords : List String :=
  ["challenge", "change", "try", "better", "progress", "start", "achieve", "overcome", "adapt", "grow"]

/-- The `struggle` bucket of `EMOTION_WORDS`. -/
def struggleWords : List String :=
  ["stress", "worry", "fear", "doubt", "confused", "overwhelm", "tired", "uncertain", "stuck", "anxious"]

/-- A stored journal entry (row of the `entries` table): identifier,
timestamp (hours, as an abstract number), raw text, stored sentiment,
stored keywords. -/
structure EntryRec where
  id : Nat
  ts : Nat
  text : String
  sentiment : ℚ
  keywords : List String
deriving DecidableEq

/-- Number of words of a bucket contained (as substrings) in the
lower-cased entry text: `for (w of ws) if (t.includes(w)) score[k] += 1`. -/
def catHits (ws : List String) (t : String) : Nat :=
  (ws.filter (fun w => includesB t w)).length

/-- The `score` object of `evolvePersonaForUser`.  The source initialises
only `wonder`, `care`, `rigor`, `gloom` and then tallies every
`EMOTION_WORDS` bucket into it, so `growth` and `struggle` keys are also
written (in JavaScript they become `NaN` since they start `undefined`;
they are modelled as plain counts here because nothing ever reads them). -/
structure EmoScore where
  wonder : Nat
  care : Nat
  rigor : Nat
  growth : Nat
  struggle : Nat
  gloom : Nat
deriving DecidableEq

/-- One iteration of the tally loop: add every bucket's hits, and bump
`gloom` when the entry's stored sentiment is negative. -/
def scoreEntry (sc : EmoScore) (e : EntryRec) : EmoScore :=
  { wonder := sc.wonder + catHits wonderWords e.text
    care := sc.care + catHits careWords e.text
    rigor := sc.rigor + catHits rigorWords e.text
    growth := sc.growth + catHits growthWords e.text
    struggle := sc.struggle + catHits struggleWords e.text
    gloom := sc.gloom + (if e.sentiment < 0 then 1 else 0) }

/-- The tally over the recent entries (the `for (const e of recent.rows)`
loop, starting from the all-zero score object). -/
def scoreEntries (es : List EntryRec) : EmoScore :=
  es.foldl scoreEntry ⟨0, 0, 0, 0, 0, 0⟩

/-- The raw (un-floored) total of the four category tallies. -/
def tallySum (es : List EntryRec) : Nat :=
  (scoreEntries es).wonder + (scoreEntries es).care + (scoreEntries es).rigor + (scoreEntries es).gloom

/-- `total = Math.max(1, score.wonder + score.care + score.rigor + score.gloom)`. -/
def tallyTotal (es : List EntryRec) : ℚ :=
  max 1 (((scoreEntries es).wonder : ℚ) + ((scoreEntries es).care : ℚ)
    + ((scoreEntries es).rigor : ℚ) + ((scoreEntries es).gloom : ℚ))

/-- The four fractional weights `(w, c, r, g)` of `evolvePersonaForUser`:
each category tally divided by the floored total. -/
def evolveWeights (es : List EntryRec) : ℚ × ℚ × ℚ × ℚ :=
  (((scoreEntries es).wonder : ℚ) / tallyTotal es,
   ((scoreEntries es).care : ℚ) / tallyTotal es,
   ((scoreEntries es).rigor : ℚ) / tallyTotal es,
   ((scoreEntries es).gloom : ℚ) / tallyTotal es)

/-- `mix(a, b, t) = a*(1-t) + b*t`. -/
def mix (a b t : ℚ) : ℚ :=
  a * (1 - t) + b * t

/-- The five-component trait vector of a persona row. -/
structure Traits where
  curiosity : ℚ
  empathy : ℚ
  rigor : ℚ
  mystique : ℚ
  challengeRate : ℚ
deriving DecidableEq

/-- The hardcoded default trait vector used when no persona row exists. -/
def defaultTraits : Traits :=
  { curiosity := 0.6, empathy := 0.7, rigor := 0.6, mystique := 0.7, challengeRate := 0.35 }

/-- One persona-evolution step of `evolvePersonaForUser`: tally the
recent entries, normalise, and smooth each trait toward its target with
its own smoothing factor, clamping to `[0, 1]`. -/
def evolveTraits (tr : Traits) (recent : List EntryRec) : Traits :=
  let ws := evolveWeights recent
  let w := ws.1
  let c := ws.2.1
  let r := ws.2.2.1
  let g := ws.2.2.2
  { curiosity := clampQ 0 1 (mix tr.curiosity (0.3 + 0.7 * w) 0.2)
    empathy := clampQ 0 1 (mix tr.empathy (0.6 + 0.4 * c - 0.2 * g) 0.3)
    rigor := clampQ 0 1 (mix tr.rigor (0.7 + 0.3 * r) 0.25)
    mystique := clampQ 0 1 (mix tr.mystique (0.3 + 0.2 * w + 0.1 * g) 0.15)
    challengeRate := clampQ 0 1 (mix tr.challengeRate (0.4 + 0.3 * w + 0.2 * r - 0.1 * g) 0.2) }

/-! ## Relevance Scorer (`calculateEntryMatch`)

`timeRelevance = Math.exp(-hoursDiff / (24*7))` is transcendental; the
scorer is therefore embedded with the value of that expression as an
explicit parameter `timeRel` (for any finite timestamps it is a
well-defined real in `(0, 1]`).  A JavaScript `NaN` is modelled as
`none`. -/

/-- `new Set(arr).size`: the number of distinct elements, via first-seen
deduplication. -/
def jsSetSize (l : List String) : Nat :=
  (dedupSeen [] l).length

/-- `Array.from(A).filter(x => B.has(x)).length`: the size of the
intersection of the two keyword sets. -/
def keywordInter (a b : List String) : Nat :=
  ((dedupSeen [] a).filter (fun x => decide (x ∈ b))).length

/-- The `keywordMatch` sub-score of `calculateEntryMatch`:
`|A ∩ B| / Math.max(A.size, B.size)`.  When both keyword sets are empty
the source divides `0 / 0`, which is `NaN` in JavaScript, modelled as
`none`. -/
def keywordMatchScore (a b : List String) : Option ℚ :=
  let m := max (jsSetSize a) (jsSetSize b)
  if m = 0 then none else some ((keywordInter a b : ℚ) / (m : ℚ))

/-- The `sentimentMatch` sub-score: `1 - |s₁ - s₂|`. -/
def sentimentMatchScore (s₁ s₂ : ℚ) : ℚ :=
  1 - |s₁ - s₂|

/-- The combined score of `calculateEntryMatch`
(`keywordMatch*0.5 + sentimentMatch*0.3 + timeRelevance*0.2`); `NaN`
(i.e. `none`) in the keyword sub-score propagates into the total. -/
def combinedScore (a b : List String) (s₁ s₂ timeRel : ℚ) : Option ℚ :=
  (keywordMatchScore a b).map
    (fun k => k * 0.5 + sentimentMatchScore s₁ s₂ * 0.3 + timeRel * 0.2)

/-! ## Entry Ingestion Orchestrator (`app.post('/entry')`)

One user's slice of the database: the user's entries newest-first
(matching `ORDER BY id DESC`), the user's persona row if any, and the
next serial id.  The fallibility of the downstream persona-evolution
step is an explicit boolean (the evolver either completes, or throws
before its single-row `UPDATE` takes effect). -/

/-- One user's database state. -/
structure Db where
  entries : List EntryRec
  persona : Option Traits
  nextId : Nat
deriving DecidableEq

/-- Outcome of a `POST /entry` request. -/
inductive PostOutcome where
  /-- `400 {error: 'text required'}` — text missing or trims to empty. -/
  | validationError : PostOutcome
  /-- The insert succeeded but `evolvePersonaForUser` threw; no success
  payload is produced. -/
  | evolveFailed : PostOutcome
  /-- `200 {entry, persona}`. -/
  | ok : EntryRec → Option Traits → PostOutcome
deriving DecidableEq

/-- `GET /entries`: the user's rows, newest first,
`LIMIT Math.min(limit, 200)`. -/
def listEntries (db : Db) (limit : Nat) : List EntryRec :=
  db.entries.take (min limit 200)

/-- The `POST /entry` handler: validate, analyse, insert, evolve the
persona (`evolveFails` selects the run in which the evolver throws after
the insert), re-read the persona row, respond. -/
def postEntry (db : Db) (now : Nat) (rawText : String) (evolveFails : Bool) :
    PostOutcome × Db :=
  let t := jsTrim rawText
  if t = "" then (PostOutcome.validationError, db)
  else
    let row : EntryRec :=
      { id := db.nextId, ts := now, text := t,
        sentiment := naiveSentiment t, keywords := extractKeywords t }
    let db1 : Db := { entries := row :: db.entries, persona := db.persona, nextId := db.nextId + 1 }
    if evolveFails then (PostOutcome.evolveFailed, db1)
    else
      let tr1 := evolveTraits (db1.persona.getD defaultTraits) (db1.entries.take 7)
      let db2 : Db := { db1 with persona := db1.persona.map (fun _ => tr1) }
      (PostOutcome.ok row db2.persona, db2)

/-! ## Reply Streaming Protocol (`app.get('/entry/stream')`)

The observable SSE events of one request, as a function of which
fallible steps fail.  The handler body is one `try` block: any throw
before `meta` was sent lands in the `catch`, which emits an `error`
event; after `meta`, a throw in the LLM consumption likewise emits
`error`.  `delta` events are emitted for the three canned lines when no
API key is configured, and otherwise for each nonempty upstream content
chunk. -/

/-- The named SSE events of the protocol. -/
inductive SEv where
  | meta : SEv
  | delta : SEv
  | endEv : SEv
  | errEv : SEv
deriving DecidableEq

/-- A terminal event (`end` or `error`). -/
def terminalEv (e : SEv) : Bool :=
  e == SEv.endEv || e == SEv.errEv

/-- One execution case of the `/entry/stream` handler: the request text,
whether the pre-`meta` database steps all succeed, whether an API key is
configured, the upstream content chunks delivered, and whether the
upstream stream then fails instead of completing. -/
structure StreamCase where
  text : String
  dbOk : Bool
  hasKey : Bool
  chunks : List String
  llmFails : Bool

/-- The sequence of SSE events the handler emits in the given case,
following the source's control flow: empty-text requests get a plain 400
(no SSE events); a throw before `meta` reaches the `catch`, which emits
a bare `error`; otherwise `meta` is followed by the canned three deltas
plus `end` (no API key), or by one delta per nonempty chunk and then
`end` or `error`. -/
def streamTrace (s : StreamCase) : List SEv :=
  if jsTrim s.text = "" then []
  else if !s.dbOk then [SEv.errEv]
  else
    SEv.meta ::
      (if !s.hasKey then [SEv.delta, SEv.delta, SEv.delta, SEv.endEv]
       else ((s.chunks.filter (fun c => c ≠ "")).map (fun _ => SEv.delta))
         ++ (if s.llmFails then [SEv.errEv] else [SEv.endEv]))

/-- The stream-shape property claimed by the specification: the trace is
exactly one `meta`, then only `delta` events, closed by exactly one
terminal event. -/
def WellFormedStream (tr : List SEv) : Prop :=
  ∃ ds t, tr = SEv.meta :: ds ++ [t]
    ∧ (∀ e ∈ ds, e = SEv.delta)
    ∧ (t = SEv.endEv ∨ t = SEv.errEv)

/-- Two entries carry the same persona-evolution signal when they agree
on the containment of every `wonder`, `care` and `rigor` word and on the
stored sentiment; their `growth`/`struggle` word content may differ
arbitrarily. -/
def SameSignal (e₁ e₂ : EntryRec) : Prop :=
  (∀ w ∈ wonderWords, includesB e₁.text w = includesB e₂.text w)
  ∧ (∀ w ∈ careWords, includesB e₁.text w = includesB e₂.text w)
  ∧ (∀ w ∈ rigorWords, includesB e₁.text w = includesB e₂.text w)
  ∧ e₁.sentiment = e₂.sentiment

/-! ## General lemmas -/

lemma clampQ_nonneg (x : ℚ) : 0 ≤ clampQ 0 1 x :=
  le_max_left 0 _

lemma clampQ_le_one (x : ℚ) : clampQ 0 1 x ≤ 1 :=
  max_le (by norm_num) (min_le_left 1 x)

lemma clampQ_eq_self {x : ℚ} (h0 : 0 ≤ x) (h1 : x ≤ 1) : clampQ 0 1 x = x := by
  unfold clampQ
  rw [min_eq_right h1, max_eq_right h0]

lemma mix_mem_unit {a b t : ℚ} (ha0 : 0 ≤ a) (ha1 : a ≤ 1) (hb0 : 0 ≤ b) (hb1 : b ≤ 1)
    (ht0 : 0 ≤ t) (ht1 : t ≤ 1) : 0 ≤ mix a b t ∧ mix a b t ≤ 1 := by
  unfold mix
  constructor
  · nlinarith [mul_nonneg ha0 (by linarith : (0:ℚ) ≤ 1 - t), mul_nonneg hb0 ht0]
  · nlinarith [mul_nonneg (by linarith : (0:ℚ) ≤ 1 - a) (by linarith : (0:ℚ) ≤ 1 - t),
      mul_nonneg (by linarith : (0:ℚ) ≤ 1 - b) ht0]

/-- No single smoothing step moves a trait by more than its smoothing
factor, for prior and target in `[0, 1]`. -/
lemma smooth_move_bound {a b t : ℚ} (ha0 : 0 ≤ a) (ha1 : a ≤ 1) (hb0 : 0 ≤ b) (hb1 : b ≤ 1)
    (ht0 : 0 ≤ t) (ht1 : t ≤ 1) : |clampQ 0 1 (mix a b t) - a| ≤ t := by
  obtain ⟨hm0, hm1⟩ := mix_mem_unit ha0 ha1 hb0 hb1 ht0 ht1
  rw [clampQ_eq_self hm0 hm1]
  have hdiff : mix a b t - a = t * (b - a) := by unfold mix; ring
  rw [hdiff, abs_mul, abs_of_nonneg ht0]
  have hba : |b - a| ≤ 1 := abs_le.2 ⟨by linarith, by linarith⟩
  nlinarith [mul_le_mul_of_nonneg_left hba ht0]

lemma tallyTotal_pos (es : List EntryRec) : 0 < tallyTotal es :=
  lt_of_lt_of_le one_pos (le_max_left 1 _)

lemma weight_frac_mem {a : ℕ} {es : List EntryRec} (ha : (a : ℚ) ≤ tallyTotal es) :
    0 ≤ (a : ℚ) / tallyTotal es ∧ (a : ℚ) / tallyTotal es ≤ 1 :=
  ⟨div_nonneg (Nat.cast_nonneg a) (le_of_lt (tallyTotal_pos es)),
   (div_le_one (tallyTotal_pos es)).2 ha⟩

lemma wonder_le_total (es : List EntryRec) : ((scoreEntries es).wonder : ℚ) ≤ tallyTotal es := by
  refine le_trans ?_ (le_max_right 1 _)
  have h1 : (0:ℚ) ≤ ((scoreEntries es).care : ℚ) := Nat.cast_nonneg _
  have h2 : (0:ℚ) ≤ ((scoreEntries es).rigor : ℚ) := Nat.cast_nonneg _
  have h3 : (0:ℚ) ≤ ((scoreEntries es).gloom : ℚ) := Nat.cast_nonneg _
  linarith

lemma care_le_total (es : List EntryRec) : ((scoreEntries es).care : ℚ) ≤ tallyTotal es := by
  refine le_trans ?_ (le_max_right 1 _)
  have h1 : (0:ℚ) ≤ ((scoreEntries es).wonder : ℚ) := Nat.cast_nonneg _
  have h2 : (0:ℚ) ≤ ((scoreEntries es).rigor : ℚ) := Nat.cast_nonneg _
  have h3 : (0:ℚ) ≤ ((scoreEntries es).gloom : ℚ) := Nat.cast_nonneg _
  linarith

lemma rigor_le_total (es : List EntryRec) : ((scoreEntries es).rigor : ℚ) ≤ tallyTotal es := by
  refine le_trans ?_ (le_max_right 1 _)
  have h1 : (0:ℚ) ≤ ((scoreEntries es).wonder : ℚ) := Nat.cast_nonneg _
  have h2 : (0:ℚ) ≤ ((scoreEntries es).care : ℚ) := Nat.cast_nonneg _
  have h3 : (0:ℚ) ≤ ((scoreEntries es).gloom : ℚ) := Nat.cast_nonneg _
  linarith

lemma gloom_le_total (es : List EntryRec) : ((scoreEntries es).gloom : ℚ) ≤ tallyTotal es := by
  refine le_trans ?_ (le_max_right 1 _)
  have h1 : (0:ℚ) ≤ ((scoreEntries es).wonder : ℚ) := Nat.cast_nonneg _
  have h2 : (0:ℚ) ≤ ((scoreEntries es).care : ℚ) := Nat.cast_nonneg _
  have h3 : (0:ℚ) ≤ ((scoreEntries es).rigor : ℚ) := Nat.cast_nonneg _
  linarith

/-- All four fractional weights lie in `[0, 1]`. -/
lemma evolveWeights_mem_unit (es : List EntryRec) :
    (0 ≤ (evolveWeights es).1 ∧ (evolveWeights es).1 ≤ 1)
    ∧ (0 ≤ (evolveWeights es).2.1 ∧ (evolveWeights es).2.1 ≤ 1)
    ∧ (0 ≤ (evolveWeights es).2.2.1 ∧ (evolveWeights es).2.2.1 ≤ 1)
    ∧ (0 ≤ (evolveWeights es).2.2.2 ∧ (evolveWeights es).2.2.2 ≤ 1) :=
  ⟨weight_frac_mem (wonder_le_total es), weight_frac_mem (care_le_total es),
   weight_frac_mem (rigor_le_total es), weight_frac_mem (gloom_le_total es)⟩

/-! ## C1 — keyword-overlap division by zero -/

/-- C1: the claim asserts the keyword-overlap sub-score is 0 when both
keyword sets are empty and `calculateEntryMatch` never returns `NaN`.
The source divides `|A ∩ B| / Math.max(A.size, B.size)` with no guard,
so for two entries with empty keyword sets it computes `0 / 0 = NaN`
(modelled `none`), which propagates into the combined score; with only
one side empty the sub-score is the well-defined `0` the spec expects. -/
theorem keywordMatch_nan_on_empty_sets :
    keywordMatchScore [] [] = none
    ∧ combinedScore [] [] 0 0 1 = none
    ∧ keywordMatchScore ["fox"] [] = some 0 := by
  refine ⟨rfl, rfl, ?_⟩
  norm_num [keywordMatchScore, jsSetSize, keywordInter, dedupSeen]

/-! ## C3 — evolved traits stay in the unit interval -/

/-- C3: for every prior trait vector (any rational components, hence in
particular components in `[0, 1]` or the defaults) and every list of
recent entries, each of the five trait components produced by one
persona-evolution step lies in `[0, 1]`. -/
theorem evolveTraits_mem_unit_interval (tr : Traits) (recent : List EntryRec) :
    (0 ≤ (evolveTraits tr recent).curiosity ∧ (evolveTraits tr recent).curiosity ≤ 1)
    ∧ (0 ≤ (evolveTraits tr recent).empathy ∧ (evolveTraits tr recent).empathy ≤ 1)
    ∧ (0 ≤ (evolveTraits tr recent).rigor ∧ (evolveTraits tr recent).rigor ≤ 1)
    ∧ (0 ≤ (evolveTraits tr recent).mystique ∧ (evolveTraits tr recent).mystique ≤ 1)
    ∧ (0 ≤ (evolveTraits tr recent).challengeRate ∧ (evolveTraits tr recent).challengeRate ≤ 1) :=
  ⟨⟨clampQ_nonneg _, clampQ_le_one _⟩, ⟨clampQ_nonneg _, clampQ_le_one _⟩,
   ⟨clampQ_nonneg _, clampQ_le_one _⟩, ⟨clampQ_nonneg _, clampQ_le_one _⟩,
   ⟨clampQ_nonneg _, clampQ_le_one _⟩⟩

/-! ## C5 — weight normalisation -/

/-- C5 counterexample: the claim asserts the four fractional weights
always sum to 1.  For a history whose single entry has no emotion-word
hits and non-negative sentiment, every tally is 0, the floored total is
1, and the weights sum to 0, not 1. -/
theorem evolveWeights_sum_ne_one_cex :
    (evolveWeights [⟨1, 0, "zzz", 0, []⟩]).1 + (evolveWeights [⟨1, 0, "zzz", 0, []⟩]).2.1
      + (evolveWeights [⟨1, 0, "zzz", 0, []⟩]).2.2.1
      + (evolveWeights [⟨1, 0, "zzz", 0, []⟩]).2.2.2 ≠ 1 := by
  have h1 : catHits wonderWords "zzz" = 0 := by decide
  have h2 : catHits careWords "zzz" = 0 := by decide
  have h3 : catHits rigorWords "zzz" = 0 := by decide
  have h4 : catHits growthWords "zzz" = 0 := by decide
  have h5 : catHits struggleWords "zzz" = 0 := by decide
  have hs : scoreEntries [⟨1, 0, "zzz", 0, []⟩] = ⟨0, 0, 0, 0, 0, 0⟩ := by
    simp [scoreEntries, scoreEntry, h1, h2, h3, h4, h5]
  simp [evolveWeights, tallyTotal, hs]

/-- C5 (amended): each category tally is normalised by the total across
the four categories floored at 1; the resulting weights sum to 1
whenever at least one tally is nonzero, and are all 0 (summing to 0)
when every tally is 0. -/
theorem evolveWeights_sum_amended (es : List EntryRec) :
    (1 ≤ tallySum es →
      (evolveWeights es).1 + (evolveWeights es).2.1 + (evolveWeights es).2.2.1
        + (evolveWeights es).2.2.2 = 1)
    ∧ (tallySum es = 0 → evolveWeights es = (0, 0, 0, 0)) := by
  constructor
  · intro h
    have hq : (1 : ℚ) ≤ ((scoreEntries es).wonder : ℚ) + ((scoreEntries es).care : ℚ)
        + ((scoreEntries es).rigor : ℚ) + ((scoreEntries es).gloom : ℚ) := by
      have := h
      unfold tallySum at this
      exact_mod_cast this
    have hT : tallyTotal es = ((scoreEntries es).wonder : ℚ) + ((scoreEntries es).care : ℚ)
        + ((scoreEntries es).rigor : ℚ) + ((scoreEntries es).gloom : ℚ) := by
      unfold tallyTotal
      exact max_eq_right hq
    have hne : tallyTotal es ≠ 0 := ne_of_gt (tallyTotal_pos es)
    simp only [evolveWeights, div_add_div_same]
    rw [← hT] at *
    field_simp
  · intro h
    unfold tallySum at h
    have hw : (scoreEntries es).wonder = 0 := by omega
    have hc : (scoreEntries es).care = 0 := by omega
    have hr : (scoreEntries es).rigor = 0 := by omega
    have hg : (scoreEntries es).gloom = 0 := by omega
    simp [evolveWeights, hw, hc, hr, hg]

/-- C5 witness: a history with one emotion-word hit has weights summing
to 1. -/
theorem evolveWeights_sum_amended_witness :
    (evolveWeights [⟨1, 0, "i wonder why", 1, []⟩]).1
      + (evolveWeights [⟨1, 0, "i wonder why", 1, []⟩]).2.1
      + (evolveWeights [⟨1, 0, "i wonder why", 1, []⟩]).2.2.1
      + (evolveWeights [⟨1, 0, "i wonder why", 1, []⟩]).2.2.2 = 1 :=
  (evolveWeights_sum_amended _).1 (by
    have h1 : catHits wonderWords "i wonder why" = 1 := by decide
    have h2 : catHits careWords "i wonder why" = 0 := by decide
    have h3 : catHits rigorWords "i wonder why" = 0 := by decide
    have hneg : ¬((1 : ℚ) < 0) := by norm_num
    simp [tallySum, scoreEntries, scoreEntry, h1, h2, h3, hneg])

/-! ## C6 — per-step trait movement is bounded by the smoothing factor -/

/-- C6: for every prior trait vector with components in `[0, 1]` and
every recent-entry history, one evolution step moves each trait by at
most its smoothing factor: 0.2 for curiosity, 0.3 for empathy, 0.25 for
rigor, 0.15 for mystique, 0.2 for challengeRate. -/
theorem evolveTraits_step_bound (tr : Traits) (recent : List EntryRec)
    (hc0 : 0 ≤ tr.curiosity) (hc1 : tr.curiosity ≤ 1)
    (he0 : 0 ≤ tr.empathy) (he1 : tr.empathy ≤ 1)
    (hr0 : 0 ≤ tr.rigor) (hr1 : tr.rigor ≤ 1)
    (hm0 : 0 ≤ tr.mystique) (hm1 : tr.mystique ≤ 1)
    (hk0 : 0 ≤ tr.challengeRate) (hk1 : tr.challengeRate ≤ 1) :
    |(evolveTraits tr recent).curiosity - tr.curiosity| ≤ 0.2
    ∧ |(evolveTraits tr recent).empathy - tr.empathy| ≤ 0.3
    ∧ |(evolveTraits tr recent).rigor - tr.rigor| ≤ 0.25
    ∧ |(evolveTraits tr recent).mystique - tr.mystique| ≤ 0.15
    ∧ |(evolveTraits tr recent).challengeRate - tr.challengeRate| ≤ 0.2 := by
  obtain ⟨⟨hw0, hw1⟩, ⟨hcw0, hcw1⟩, ⟨hrw0, hrw1⟩, ⟨hg0, hg1⟩⟩ := evolveWeights_mem_unit recent
  refine ⟨?_, ?_, ?_, ?_, ?_⟩
  · exact smooth_move_bound hc0 hc1 (by linarith) (by linarith) (by norm_num) (by norm_num)
  · exact smooth_move_bound he0 he1 (by linarith) (by linarith) (by norm_num) (by norm_num)
  · exact smooth_move_bound hr0 hr1 (by linarith) (by linarith) (by norm_num) (by norm_num)
  · exact smooth_move_bound hm0 hm1 (by linarith) (by linarith) (by norm_num) (by norm_num)
  · exact smooth_move_bound hk0 hk1 (by linarith) (by linarith) (by norm_num) (by norm_num)

/-- C6 witness: the bound instantiated at the default trait vector and
an empty history. -/
theorem evolveTraits_step_bound_witness :
    |(evolveTraits defaultTraits []).curiosity - defaultTraits.curiosity| ≤ 0.2
    ∧ |(evolveTraits defaultTraits []).empathy - defaultTraits.empathy| ≤ 0.3
    ∧ |(evolveTraits defaultTraits []).rigor - defaultTraits.rigor| ≤ 0.25
    ∧ |(evolveTraits defaultTraits []).mystique - defaultTraits.mystique| ≤ 0.15
    ∧ |(evolveTraits defaultTraits []).challengeRate - defaultTraits.challengeRate| ≤ 0.2 :=
  evolveTraits_step_bound defaultTraits []
    (by norm_num [defaultTraits]) (by norm_num [defaultTraits])
    (by norm_num [defaultTraits]) (by norm_num [defaultTraits])
    (by norm_num [defaultTraits]) (by norm_num [defaultTraits])
    (by norm_num [defaultTraits]) (by norm_num [defaultTraits])
    (by norm_num [defaultTraits]) (by norm_num [defaultTraits])

/-! ## C4 — sentiment range, sign and empty-string cases -/

/-- C4: for all text inputs `naiveSentiment` lies in `[-1, 1]`; a text
containing a positive-set term (a whole-word occurrence of a
`progress`/`confidence`/`motivation`/`growth` word) and no negative-set
term (no `challenges` word, the only negative category the source can
score) has sentiment `> 0`; symmetrically a text with a negative-set
term and no positive-set term has sentiment `< 0`; the empty string
scores 0. -/
theorem naiveSentiment_spec (s sp sn : String) :
    (-1 ≤ naiveSentiment s ∧ naiveSentiment s ≤ 1)
    ∧ (1 ≤ posScore sp → negScore sp = 0 → 0 < naiveSentiment sp)
    ∧ (1 ≤ negScore sn → posScore sn = 0 → naiveSentiment sn < 0)
    ∧ naiveSentiment "" = 0 := by
  refine ⟨⟨le_max_left _ _, max_le (by norm_num) (min_le_left _ _)⟩, ?_, ?_, ?_⟩
  · intro hp hn
    have hp5 : (1 : ℚ) / 5 ≤ ((posScore sp : ℚ) - (negScore sp : ℚ)) / 5 := by
      have : (1 : ℚ) ≤ (posScore sp : ℚ) := by exact_mod_cast hp
      have hz : ((negScore sp : ℚ)) = 0 := by exact_mod_cast hn
      rw [hz]
      linarith
    have hmin : (1 : ℚ) / 5 ≤ min 1 (((posScore sp : ℚ) - (negScore sp : ℚ)) / 5) :=
      le_min (by norm_num) hp5
    calc (0 : ℚ) < 1 / 5 := by norm_num
      _ ≤ min 1 (((posScore sp : ℚ) - (negScore sp : ℚ)) / 5) := hmin
      _ ≤ naiveSentiment sp := le_max_right _ _
  · intro hn hp
    have hn5 : ((posScore sn : ℚ) - (negScore sn : ℚ)) / 5 ≤ -1 / 5 := by
      have : (1 : ℚ) ≤ (negScore sn : ℚ) := by exact_mod_cast hn
      have hz : ((posScore sn : ℚ)) = 0 := by exact_mod_cast hp
      rw [hz]
      linarith
    refine max_lt (by norm_num) ?_
    calc min 1 (((posScore sn : ℚ) - (negScore sn : ℚ)) / 5)
        ≤ ((posScore sn : ℚ) - (negScore sn : ℚ)) / 5 := min_le_right _ _
      _ ≤ -1 / 5 := hn5
      _ < 0 := by norm_num
  · have h1 : posScore "" = 0 := by decide
    have h2 : negScore "" = 0 := by decide
    rw [naiveSentiment, h1, h2]
    norm_num [clampQ, max_def, min_def]

/-- C4 witness: the spec instantiated at a neutral text, a text with
only positive-set terms, a text with only negative-set terms, and the
empty string. -/
theorem naiveSentiment_spec_witness :
    (-1 ≤ naiveSentiment "hello" ∧ naiveSentiment "hello" ≤ 1)
    ∧ 0 < naiveSentiment "improve and grow"
    ∧ naiveSentiment "a hard problem" < 0
    ∧ naiveSentiment "" = 0 :=
  ⟨(naiveSentiment_spec "hello" "improve and grow" "a hard problem").1,
   (naiveSentiment_spec "hello" "improve and grow" "a hard problem").2.1
     (by decide) (by decide),
   (naiveSentiment_spec "hello" "improve and grow" "a hard problem").2.2.1
     (by decide) (by decide),
   (naiveSentiment_spec "hello" "improve and grow" "a hard problem").2.2.2⟩

/-! ## C7 — extractKeywords shape -/

lemma normalizedChars_mem (s : String) :
    ∀ c ∈ normalizedChars s, isAlnumLower c = true ∨ c = ' ' := by
  intro c hc
  obtain ⟨d, _, rfl⟩ := List.mem_map.1 hc
  unfold normalizeChar
  by_cases h : isAlnumLower d.toLower
  · left
    simp [h]
  · right
    simp [h]

lemma splitChars_chars {P : Char → Prop} :
    ∀ (cs acc : List Char), (∀ c ∈ cs, P c ∨ c = ' ') → (∀ c ∈ acc, P c) →
      ∀ tok ∈ splitChars cs acc, ∀ ch ∈ tok.data, P ch := by
  intro cs
  induction cs with
  | nil =>
    intro acc _ hacc tok htok ch hch
    simp only [splitChars, List.mem_singleton] at htok
    subst htok
    exact hacc ch (List.mem_reverse.1 hch)
  | cons c cs ih =>
    intro acc hcs hacc tok htok ch hch
    by_cases h : c = ' '
    · rw [splitChars, if_pos h] at htok
      rcases List.mem_cons.1 htok with rfl | htok'
      · exact hacc ch (List.mem_reverse.1 hch)
      · exact ih [] (fun d hd => hcs d (List.mem_cons_of_mem c hd)) (by simp) tok htok' ch hch
    · rw [splitChars, if_neg h] at htok
      refine ih (c :: acc) (fun d hd => hcs d (List.mem_cons_of_mem c hd)) ?_ tok htok ch hch
      intro d hd
      rcases List.mem_cons.1 hd with rfl | hd'
      · rcases hcs d (List.mem_cons_self d cs) with hP | hsp
        · exact hP
        · exact absurd hsp h
      · exact hacc d hd'

lemma rawTokens_chars (s : String) :
    ∀ tok ∈ rawTokens s, ∀ ch ∈ tok.data, isAlnumLower ch = true :=
  splitChars_chars (normalizedChars s) [] (normalizedChars_mem s) (by simp)

lemma dedupSeen_sublist : ∀ (xs seen : List String), List.Sublist (dedupSeen seen xs) xs := by
  intro xs
  induction xs with
  | nil =>
    intro seen
    simp [dedupSeen]
  | cons x xs ih =>
    intro seen
    rw [dedupSeen]
    by_cases h : x ∈ seen
    · rw [if_pos h]
      exact (ih seen).cons x
    · rw [if_neg h]
      exact (ih (x :: seen)).cons₂ x

lemma dedupSeen_nodup :
    ∀ (xs seen : List String), (dedupSeen seen xs).Nodup ∧ ∀ y ∈ dedupSeen seen xs, y ∉ seen := by
  intro xs
  induction xs with
  | nil =>
    intro seen
    simp [dedupSeen]
  | cons x xs ih =>
    intro seen
    rw [dedupSeen]
    by_cases h : x ∈ seen
    · rw [if_pos h]
      exact ih seen
    · rw [if_neg h]
      refine ⟨List.nodup_cons.2 ⟨fun hx => ((ih (x :: seen)).2 x hx) (List.mem_cons_self x seen),
        (ih (x :: seen)).1⟩, ?_⟩
      intro y hy
      rcases List.mem_cons.1 hy with rfl | hy'
      · exact h
      · intro hys
        exact ((ih (x :: seen)).2 y hy') (List.mem_cons_of_mem x hys)

/-- C7: for every text, `extractKeywords` returns at most 12 tokens,
each made only of lower-case letters and digits (hence all-lowercase),
none a stopword, none of length ≤ 2, with no duplicates, appearing in
the order of the normalised token sequence (a sublist of it, i.e.
first-seen order); the empty string yields the empty sequence. -/
theorem extractKeywords_spec (s : String) :
    (extractKeywords s).length ≤ 12
    ∧ (∀ w ∈ extractKeywords s,
        (∀ ch ∈ w.data, isAlnumLower ch = true) ∧ w ∉ STOPWORDS ∧ 2 < w.length)
    ∧ (extractKeywords s).Nodup
    ∧ List.Sublist (extractKeywords s) (rawTokens s)
    ∧ extractKeywords "" = [] := by
  have hsub1 : List.Sublist (dedupSeen [] (filteredTokens s)) (filteredTokens s) := dedupSeen_sublist _ []
  have hsub2 : List.Sublist (extractKeywords s) (dedupSeen [] (filteredTokens s)) := List.take_sublist _ _
  have hsubf : List.Sublist (filteredTokens s) (rawTokens s) := List.filter_sublist _
  refine ⟨List.length_take_le _ _, ?_, ?_, hsub2.trans (hsub1.trans hsubf), by decide⟩
  · intro w hw
    have hwf : w ∈ filteredTokens s := hsub1.subset (hsub2.subset hw)
    have hraw : w ∈ rawTokens s := hsubf.subset hwf
    have hfil : keywordFilter w = true := List.of_mem_filter hwf
    have h2 : 2 < w.length ∧ w ∉ STOPWORDS := by
      simpa [keywordFilter] using hfil
    exact ⟨fun ch hch => rawTokens_chars s w hraw ch hch, h2.2, h2.1⟩
  · exact ((dedupSeen_nodup (filteredTokens s) []).1).sublist hsub2

/-- C7 witness: the spec instantiated at a concrete text, with the
per-token facts instantiated at the token `"quick"`. -/
theorem extractKeywords_spec_witness :
    extractKeywords "The Quick-quick FOX!!" = ["quick", "fox"]
    ∧ (extractKeywords "The Quick-quick FOX!!").length ≤ 12
    ∧ ("quick" ∉ STOPWORDS ∧ 2 < String.length "quick")
    ∧ (extractKeywords "The Quick-quick FOX!!").Nodup
    ∧ List.Sublist (extractKeywords "The Quick-quick FOX!!") (rawTokens "The Quick-quick FOX!!")
    ∧ extractKeywords "" = [] :=
  ⟨by decide,
   (extractKeywords_spec "The Quick-quick FOX!!").1,
   ⟨((extractKeywords_spec "The Quick-quick FOX!!").2.1 "quick" (by decide)).2.1,
    ((extractKeywords_spec "The Quick-quick FOX!!").2.1 "quick" (by decide)).2.2⟩,
   (extractKeywords_spec "The Quick-quick FOX!!").2.2.1,
   (extractKeywords_spec "The Quick-quick FOX!!").2.2.2.1,
   (extractKeywords_spec "The Quick-quick FOX!!").2.2.2.2⟩

/-! ## C2 — SSE event ordering -/

/-- C2 counterexample: the claim asserts every stream execution emits
exactly one `meta` before any `delta` and one terminal event.  When a
pre-`meta` step throws (here: a database failure), the handler's `catch`
emits a bare `error` event with no preceding `meta`, so the trace
`[error]` is not well-formed in the claimed sense. -/
theorem streamTrace_not_wellformed_cex :
    ¬ WellFormedStream (streamTrace ⟨"hello", false, false, [], false⟩) := by
  have ht : streamTrace ⟨"hello", false, false, [], false⟩ = [SEv.errEv] := by decide
  rw [ht]
  rintro ⟨ds, t, he, -, -⟩
  cases ds with
  | nil => simp at he
  | cons d ds => simp at he

lemma streamTrace_eq_of (s : StreamCase) (h1 : jsTrim s.text ≠ "") (h2 : s.dbOk = true) :
    streamTrace s = SEv.meta ::
      (if !s.hasKey then [SEv.delta, SEv.delta, SEv.delta, SEv.endEv]
       else ((s.chunks.filter (fun c => c ≠ "")).map (fun _ => SEv.delta))
         ++ (if s.llmFails then [SEv.errEv] else [SEv.endEv])) := by
  unfold streamTrace
  rw [if_neg h1, h2]
  simp

/-- C2 (amended): in every execution in which the `meta` event is
emitted (i.e. the validation and all pre-`meta` steps succeed), the
stream is exactly one `meta`, then only `delta` events, closed by
exactly one terminal event (`end` or `error`); executions failing before
`meta` emit at most a single bare `error` event. -/
theorem streamTrace_meta_wellformed (s : StreamCase) (h : SEv.meta ∈ streamTrace s) :
    WellFormedStream (streamTrace s) := by
  have h1 : jsTrim s.text ≠ "" := by
    intro he
    unfold streamTrace at h
    rw [if_pos he] at h
    simp at h
  have h2 : s.dbOk = true := by
    cases hdb : s.dbOk with
    | true => rfl
    | false =>
      unfold streamTrace at h
      rw [if_neg h1, hdb] at h
      simp at h
  rw [streamTrace_eq_of s h1 h2]
  cases hk : s.hasKey with
  | false =>
    refine ⟨[SEv.delta, SEv.delta, SEv.delta], SEv.endEv, rfl, ?_, Or.inl rfl⟩
    intro e he
    simpa using he
  | true =>
    cases hF : s.llmFails with
    | false =>
      refine ⟨(s.chunks.filter (fun c => c ≠ "")).map (fun _ => SEv.delta), SEv.endEv,
        rfl, ?_, Or.inl rfl⟩
      intro e he
      obtain ⟨_, _, rfl⟩ := List.mem_map.1 he
      rfl
    | true =>
      refine ⟨(s.chunks.filter (fun c => c ≠ "")).map (fun _ => SEv.delta), SEv.errEv,
        rfl, ?_, Or.inr rfl⟩
      intro e he
      obtain ⟨_, _, rfl⟩ := List.mem_map.1 he
      rfl

/-- C2 witness: a fully successful no-API-key execution emits `meta` and
is well-formed. -/
theorem streamTrace_meta_wellformed_witness :
    SEv.meta ∈ streamTrace ⟨" test ", true, false, [], false⟩
    ∧ WellFormedStream (streamTrace ⟨" test ", true, false, [], false⟩) :=
  ⟨by decide, streamTrace_meta_wellformed ⟨" test ", true, false, [], false⟩ (by decide)⟩

/-! ## C8 — validation -/

/-- C8: a request whose text trims to empty fails validation with no
side effects (the database state is returned unchanged, so no entry is
inserted and the persona is untouched), and a request whose text is
non-empty after trimming never fails validation. -/
theorem postEntry_validation (db : Db) (now : Nat) (text : String) (f : Bool) :
    (jsTrim text = "" → postEntry db now text f = (PostOutcome.validationError, db))
    ∧ (jsTrim text ≠ "" → (postEntry db now text f).1 ≠ PostOutcome.validationError) := by
  constructor
  · intro h
    simp [postEntry, h]
  · intro h
    cases hf : f <;> simp [postEntry, h, hf]

/-- C8 witness: the validation behaviour at a whitespace-only text and
at a non-empty text. -/
theorem postEntry_validation_witness :
    postEntry ⟨[], none, 0⟩ 0 "   " true = (PostOutcome.validationError, ⟨[], none, 0⟩)
    ∧ (postEntry ⟨[], none, 0⟩ 0 " hi " false).1 ≠ PostOutcome.validationError :=
  ⟨(postEntry_validation ⟨[], none, 0⟩ 0 "   " true).1 (by decide),
   (postEntry_validation ⟨[], none, 0⟩ 0 " hi " false).2 (by decide)⟩

/-! ## C9 — entry persistence survives evolver failure -/

/-- C9: when the entry insert succeeds and the subsequent
persona-evolution step fails, the inserted entry remains persisted — it
sits on top of the unchanged prior entries, the persona row is
untouched, the entry is returned by the `GET /entries` listing — and the
request reports a failure rather than a success payload. -/
theorem postEntry_evolve_failure (db : Db) (now : Nat) (text : String)
    (h : jsTrim text ≠ "") :
    (postEntry db now text true).1 = PostOutcome.evolveFailed
    ∧ (postEntry db now text true).2.entries
        = ⟨db.nextId, now, jsTrim text, naiveSentiment (jsTrim text),
            extractKeywords (jsTrim text)⟩ :: db.entries
    ∧ (postEntry db now text true).2.persona = db.persona
    ∧ (⟨db.nextId, now, jsTrim text, naiveSentiment (jsTrim text),
          extractKeywords (jsTrim text)⟩ : EntryRec)
        ∈ listEntries (postEntry db now text true).2 100 := by
  refine ⟨by simp [postEntry, h], by simp [postEntry, h], by simp [postEntry, h], ?_⟩
  have he : (postEntry db now text true).2.entries
      = ⟨db.nextId, now, jsTrim text, naiveSentiment (jsTrim text),
          extractKeywords (jsTrim text)⟩ :: db.entries := by
    simp [postEntry, h]
  unfold listEntries
  rw [he]
  simp

/-- C9 witness: evolution failure after inserting one concrete entry. -/
theorem postEntry_evolve_failure_witness :
    (postEntry ⟨[], some defaultTraits, 5⟩ 7 " hi " true).1 = PostOutcome.evolveFailed
    ∧ (postEntry ⟨[], some defaultTraits, 5⟩ 7 " hi " true).2.entries
        = ⟨5, 7, jsTrim " hi ", naiveSentiment (jsTrim " hi "), extractKeywords (jsTrim " hi ")⟩ :: []
    ∧ (postEntry ⟨[], some defaultTraits, 5⟩ 7 " hi " true).2.persona = some defaultTraits
    ∧ (⟨5, 7, jsTrim " hi ", naiveSentiment (jsTrim " hi "), extractKeywords (jsTrim " hi ")⟩ : EntryRec)
        ∈ listEntries (postEntry ⟨[], some defaultTraits, 5⟩ 7 " hi " true).2 100 :=
  postEntry_evolve_failure ⟨[], some defaultTraits, 5⟩ 7 " hi " (by decide)

/-! ## C10 — growth/struggle words do not influence evolution -/

lemma foldl_score_core_eq {es₁ es₂ : List EntryRec} (h : List.Forall₂ SameSignal es₁ es₂) :
    ∀ a₁ a₂ : EmoScore, a₁.wonder = a₂.wonder → a₁.care = a₂.care →
      a₁.rigor = a₂.rigor → a₁.gloom = a₂.gloom →
      (es₁.foldl scoreEntry a₁).wonder = (es₂.foldl scoreEntry a₂).wonder
      ∧ (es₁.foldl scoreEntry a₁).care = (es₂.foldl scoreEntry a₂).care
      ∧ (es₁.foldl scoreEntry a₁).rigor = (es₂.foldl scoreEntry a₂).rigor
      ∧ (es₁.foldl scoreEntry a₁).gloom = (es₂.foldl scoreEntry a₂).gloom := by
  induction h with
  | nil =>
    intro a₁ a₂ hw hc hr hg
    exact ⟨hw, hc, hr, hg⟩
  | cons hR _ ih =>
    intro a₁ a₂ hw hc hr hg
    simp only [List.foldl_cons]
    refine ih _ _ ?_ ?_ ?_ ?_
    · simp only [scoreEntry, catHits]
      rw [List.filter_congr (fun w hmem => hR.1 w hmem), hw]
    · simp only [scoreEntry, catHits]
      rw [List.filter_congr (fun w hmem => hR.2.1 w hmem), hc]
    · simp only [scoreEntry, catHits]
      rw [List.filter_congr (fun w hmem => hR.2.2.1 w hmem), hr]
    · simp only [scoreEntry]
      rw [hR.2.2.2, hg]

/-- C10: occurrences of `growth`/`struggle` terms have no effect on the
evolved trait vector: for any two recent-entry histories whose entries
pairwise agree on `wonder`/`care`/`rigor` word containment and on stored
sentiment (but may differ arbitrarily in `growth`/`struggle` content),
one evolution step from the same prior produces the same traits. -/
theorem evolveTraits_ignores_growth_struggle (tr : Traits) (es₁ es₂ : List EntryRec)
    (h : List.Forall₂ SameSignal es₁ es₂) :
    evolveTraits tr es₁ = evolveTraits tr es₂ := by
  obtain ⟨hw, hc, hr, hg⟩ :=
    foldl_score_core_eq h ⟨0, 0, 0, 0, 0, 0⟩ ⟨0, 0, 0, 0, 0, 0⟩ rfl rfl rfl rfl
  have hW : evolveWeights es₁ = evolveWeights es₂ := by
    unfold evolveWeights tallyTotal scoreEntries
    rw [hw, hc, hr, hg]
  unfold evolveTraits
  rw [hW]

/-- C10 witness: a history differing from another only by the extra
growth/struggle words "challenge" and "stress" evolves identically. -/
theorem evolveTraits_ignores_growth_struggle_witness :
    evolveTraits defaultTraits [⟨1, 0, "hello", 0, []⟩]
      = evolveTraits defaultTraits [⟨1, 0, "hello challenge stress", 0, []⟩] :=
  evolveTraits_ignores_growth_struggle defaultTraits _ _
    (List.Forall₂.cons ⟨by decide, by decide, by decide, rfl⟩ List.Forall₂.nil)

end DreamShell
